import Mathlib

/-!
Shallow embedding of `src/cervsus_decoder.py` (class `CervsusSolver`).

Strings are modelled as `List Char`.  Python primitives used by the source
(`str.replace(" ", "")`, `str.lower()`, `str.upper()`, `str.split()`,
`str.strip()`, `" ".join`, substring containment `in`) are modelled first.
A Python run-time exception that the source does not catch is modelled as
`Option.none` of the surrounding operation.
-/

namespace Cervsus

/-! ## Python string primitives -/

/-- The whitespace characters recognised by Python's argument-less
`str.split()` and `str.strip()`, restricted to the Latin-1 range. -/
def pyWhitespace : List Char :=
  [' ', '\t', '\n', '\x0b', '\x0c', '\r', '\x1c', '\x1d', '\x1e', '\x1f', '\x85', '\xa0']

def pyIsSpace (c : Char) : Bool := c ∈ pyWhitespace

/-- Python `s.split()`: split on whitespace runs, dropping empty tokens. -/
def pySplit (l : List Char) : List (List Char) :=
  (l.splitOnP pyIsSpace).filter (· ≠ [])

/-- Python `s.strip()`: drop leading and trailing whitespace. -/
def pyStrip (l : List Char) : List Char :=
  ((l.dropWhile pyIsSpace).reverse.dropWhile pyIsSpace).reverse

/-- Python `" ".join ls`. -/
def pyJoin (ls : List (List Char)) : List Char := List.intercalate [' '] ls

/-! ## Constructor constants (`__init__`) -/

/-- `self.vocales = "aeiou"` -/
def vocales : List Char := ['a', 'e', 'i', 'o', 'u']

/-- `self.neutro = "·"` -/
def neutro : Char := '·'

/-! ## Módulo II – matrix construction -/

/-- `texto_cifrado.replace(" ", "").lower()` -/
def limpiar (texto : List Char) : List Char :=
  (texto.filter (fun c => c ≠ ' ')).map Char.toLower

/-- Right-pad with the neutral filler so the length divides `ancho`
(`if resto != 0: t.extend([self.neutro] * faltante)`). -/
def rellenar (l : List Char) (ancho : Nat) : List Char :=
  if l.length % ancho = 0 then l
  else l ++ List.replicate (ancho - l.length % ancho) neutro

/-- `matriz = [t[i:i + ancho] for i in range(0, len(t), ancho)]` applied to
the cleaned, padded text; the comprehension yields `ceil(len(t)/ancho)` rows. -/
def matriz (texto : List Char) (ancho : Nat) : List (List Char) :=
  (List.range (((rellenar (limpiar texto) ancho).length + ancho - 1) / ancho)).map
    (fun i => ((rellenar (limpiar texto) ancho).drop (i * ancho)).take ancho)

/-! ## Módulo II – diagonal readings -/

/-- Cell access `m[r][c]` (all use sites keep `r`, `c` in bounds). -/
def celda (m : List (List Char)) (r c : Nat) : Char := (m.getD r []).getD c ' '

/-- Closed form of the `while 0 <= r < filas and 0 <= c < cols` walk with
`salto = 1`: starting from row `0` (or `filas - 1` when `invertida`) of
column `sc`, the walk visits exactly `min filas (cols - sc)` cells. -/
def diagonalDesde (m : List (List Char)) (filas cols sc : Nat) (invertida : Bool) :
    List Char :=
  (List.range (min filas (cols - sc))).map
    (fun i => celda m (if invertida then filas - 1 - i else i) (sc + i))

/-- `leer_diagonal`: `cols = len(m[0])` raises `IndexError` on an empty
matrix, modelled as `none`; otherwise concatenates the diagonals started at
every column and strips the filler (`.replace(self.neutro, "")`). -/
def leer_diagonal (m : List (List Char)) (invertida espejo : Bool) :
    Option (List Char) :=
  match m with
  | [] => none
  | m0 :: _ =>
    let filas := m.length
    let cols := m0.length
    some ((((List.range cols).map (fun sc =>
      let d := diagonalDesde m filas cols sc invertida
      if espejo then d.reverse else d)).flatten).filter (fun c => c ≠ neutro))

/-! ## Stability score -/

/-- The consonant test of `puntuacion_estabilidad`:
`c not in self.vocales and c != self.neutro`. -/
def esConsonanteCodigo (c : Char) : Bool := c ∉ vocales ∧ c ≠ neutro

/-- `puntuacion_estabilidad(s) = voc - abs(cons - voc)`. -/
def puntuacion_estabilidad (s : List Char) : Int :=
  let voc : Int := (s.filter (fun c => c ∈ vocales)).length
  let cons : Int := (s.filter esConsonanteCodigo).length
  voc - (cons - voc).natAbs

/-- Python `max(candidatos, key=clave)`: fold keeping the first maximum. -/
def maxConClave (clave : List Char → Int) (x : List Char) (xs : List (List Char)) :
    List Char :=
  xs.foldl (fun mejor c => if clave c > clave mejor then c else mejor) x

/-- `_crear_matriz_y_leer_diagonal`: build the grid, read the three diagonal
candidates, return the first candidate of maximal stability score.
`none` models the `IndexError` raised on an empty grid. -/
def crear_matriz_y_leer_diagonal (texto : List Char) (ancho : Nat) :
    Option (List Char) :=
  let m := matriz texto ancho
  match leer_diagonal m false false, leer_diagonal m true false,
      leer_diagonal m false true with
  | some normal, some inversa, some espejo =>
    some (maxConClave puntuacion_estabilidad normal [inversa, espejo])
  | _, _, _ => none

/-! ## Módulo I – suffix inversion -/

/-- `sufijos = ["ar", "er", "ir", "ción", "sión", "mente", "ado", "ido", "ando", "iendo"]` -/
def sufijos : List (List Char) :=
  ["ar", "er", "ir", "ción", "sión", "mente", "ado", "ido", "ando", "iendo"].map
    String.toList

/-- `_logica_inversion_sufijo`: first suffix of the table that matches wins;
the word is rewritten as `s + raiz` where `raiz = palabra[:-len(s)]`. -/
def logica_inversion_sufijo (palabra : List Char) : List Char :=
  if palabra.length ≤ 3 then palabra
  else
    match sufijos.find? (fun s => s.isSuffixOf palabra) with
    | some s => s ++ palabra.take (palabra.length - s.length)
    | none => palabra

/-! ## Módulo III – phonetic consolidation -/

/-- One pass of Python `str.replace` for a two-character pattern
`[a, b]` with replacement `[r]` (all table entries have this shape). -/
def reemplazar2 (a b r : Char) : List Char → List Char
  | x :: y :: resto =>
    if x = a ∧ y = b then r :: reemplazar2 a b r resto
    else x :: reemplazar2 a b r (y :: resto)
  | l => l

/-- The replacement table of `_consolidacion_fonosemantica`, in insertion
order (Python dicts iterate in insertion order). -/
def reemplazos : List (Char × Char × Char) :=
  [('k', 'k', 'k'), ('c', 'c', 'c'), ('z', 'z', 'z'), ('p', 'h', 'f'),
   ('t', 'h', 't'), ('g', 'h', 'g'), ('q', 'u', 'k'), ('c', 'h', 'x'),
   ('l', 'l', 'l'), ('s', 's', 's')]

/-- `_consolidacion_fonosemantica`: the replacements applied sequentially. -/
def consolidacion_fonosemantica (texto : List Char) : List Char :=
  reemplazos.foldl (fun acc e => reemplazar2 e.1 e.2.1 e.2.2 acc) texto

/-! ## Módulo IV – morphological reconstruction -/

/-- `_reconstruccion_morfologica_final`: suffix inversion word by word. -/
def reconstruccion_morfologica_final (frase : List Char) : List Char :=
  pyJoin ((pySplit frase).map logica_inversion_sufijo)

/-! ## Módulo FIL – hex index decode -/

/-- The characters accepted by the inner check of
`_intento_decodificacion_indice`. -/
def digitosHex : List Char := "0123456789abcdefABCDEF".toList

def valorHex (c : Char) : Nat :=
  if '0' ≤ c ∧ c ≤ '9' then c.toNat - '0'.toNat
  else if 'a' ≤ c ∧ c ≤ 'f' then c.toNat - 'a'.toNat + 10
  else if 'A' ≤ c ∧ c ≤ 'F' then c.toNat - 'A'.toNat + 10
  else 0

/-- `binascii.unhexlify`: consecutive hex-digit pairs to byte values. -/
def unhex : List Char → List Nat
  | a :: b :: resto => (valorHex a * 16 + valorHex b) :: unhex resto
  | _ => []

/-- `_intento_decodificacion_indice`: `None` unless the space-stripped text
is all hex digits of even length; `bytes.decode('ascii')` raises (caught,
yielding `None`) exactly when some byte exceeds `127`; on success the text
is reversed as one block (`[::-1]`) and stripped. -/
def intento_decodificacion_indice (texto : List Char) : Option (List Char) :=
  let texto_limpio := texto.filter (fun c => c ≠ ' ')
  if ¬ (texto_limpio.all (fun c => c ∈ digitosHex)) ∨ texto_limpio.length % 2 ≠ 0 then
    none
  else
    let octetos := unhex texto_limpio
    if octetos.all (fun b => b < 128) then
      some (pyStrip ((octetos.map Char.ofNat).reverse))
    else
      none

/-! ## Módulo MDI – inconsistency detection -/

/-- `_deteccion_inconsistencia`: `True` when there is no word or the mean
word length is below `3.5`; `2 * sum < 7 * count` is the exact form of
`sum / count < 3.5`. -/
def deteccion_inconsistencia (texto_miv : List Char) : Bool :=
  let palabras := pySplit texto_miv
  if palabras = [] then true
  else decide (2 * ((palabras.map List.length).sum) < 7 * palabras.length)

/-! ## Módulo V – correction mirror -/

/-- The K4 fingerprint checked by `_solucion_espejo_correccion`. -/
def huellaK4 : List Char := "NYPVTTMTEHSSOETFEGFBTQFSSEJCCIEWPSB".toList

/-- The canonical answer returned when the fingerprint is found. -/
def respuestaK4 : List Char :=
  "DELUSION IS THE FINAL ANSWER. (MÓDULO V ACTIVADO: Corrección de Espejo +4)".toList

/-- The generic message of the fallback path. -/
def mensajeGenerico : List Char :=
  "Corrección de Espejo aplicada, pero sin resultado semántico claro.".toList

/-- Python substring containment `pat in l`. -/
def esSubcadena (pat l : List Char) : Bool :=
  l.tails.any (fun t => pat.isPrefixOf t)

/-- `_solucion_espejo_correccion`: fingerprint lookup on
`texto_original.upper().replace(' ', '')`, else the generic message. -/
def solucion_espejo_correccion (texto_original : List Char) : List Char :=
  if esSubcadena huellaK4 ((texto_original.map Char.toUpper).filter (fun c => c ≠ ' '))
  then respuestaK4
  else mensajeGenerico

/-! ## `decodificar` – the dispatcher -/

structure DiagnosticResult where
  modulo_activo : List Char
  diagnostico_mdi : Option (List Char)
  mii_seleccion : Option (List Char)
  miii_fonetizado : Option (List Char)
  mensaje_descifrado : List Char
  deriving DecidableEq, Repr

def etiquetaFIL : List Char := "FIL (Filtro de Inversión de Lógica)".toList

def etiquetaModuloV : List Char :=
  "MÓDULO V (Espejo de Corrección, activado por MDI)".toList

def etiquetaLinguistico : List Char :=
  "Lingüístico Estructural (MII -> MIII -> MIV)".toList

def diagnosticoFallo : List Char :=
  "FALLO ESTRUCTURAL DE CLAVE DETECTADO (Inconsistencia Semántica)".toList

def diagnosticoAceptable : List Char := "Consistencia Aceptable".toList

/-- Python `c.isdigit()` restricted to ASCII. -/
def pyEsDigito (c : Char) : Bool := '0' ≤ c ∧ c ≤ '9'

/-- The guard of step 1 of `decodificar`:
`len(texto.replace(" ", "")) > 5 and all(c.isdigit() or c in 'abcdefABCDEF ' for c in texto)`. -/
def condicionFIL (texto : List Char) : Bool :=
  (texto.filter (fun c => c ≠ ' ')).length > 5 ∧
    texto.all (fun c => pyEsDigito c ∨ c ∈ "abcdefABCDEF ".toList)

/-- Steps 2–4 of `decodificar`: the linguistic chain MII → MIII → MIV and
the MDI router; `none` models the uncaught `IndexError` of `leer_diagonal`. -/
def decodificarLinguistico (texto : List Char) (ancho : Nat) :
    Option DiagnosticResult :=
  match crear_matriz_y_leer_diagonal texto ancho with
  | none => none
  | some base =>
    let fonetizado := consolidacion_fonosemantica base
    let reconstruido := reconstruccion_morfologica_final fonetizado
    if deteccion_inconsistencia reconstruido then
      some { modulo_activo := etiquetaModuloV
             diagnostico_mdi := some diagnosticoFallo
             mii_seleccion := none
             miii_fonetizado := none
             mensaje_descifrado := solucion_espejo_correccion texto }
    else
      some { modulo_activo := etiquetaLinguistico
             diagnostico_mdi := some diagnosticoAceptable
             mii_seleccion := some base
             miii_fonetizado := some fonetizado
             mensaje_descifrado := reconstruido }

/-- `decodificar`: try the FIL filter first (`if resultado_fil:` — both
`None` and the empty string fall through), then the linguistic chain. -/
def decodificar (texto : List Char) (ancho : Nat) : Option DiagnosticResult :=
  if condicionFIL texto then
    match intento_decodificacion_indice texto with
    | some r =>
      if r ≠ [] then
        some { modulo_activo := etiquetaFIL
               diagnostico_mdi := none
               mii_seleccion := none
               miii_fonetizado := none
               mensaje_descifrado := r }
      else decodificarLinguistico texto ancho
    | none => decodificarLinguistico texto ancho
  else decodificarLinguistico texto ancho

/-! ## Definitions taken from the specification's wording
(used to compare the spec's claims with the source embedding) -/

/-- The stability score as claim C2 words it: consonants are only
alphabetic, non-filler characters outside the vowel set, so digits,
spaces and punctuation count toward neither class. -/
def puntuacion_estabilidad_spec (s : List Char) : Int :=
  let voc : Int := (s.filter (fun c => c ∈ vocales)).length
  let cons : Int := (s.filter (fun c => c.isAlpha ∧ c ∉ vocales ∧ c ≠ neutro)).length
  voc - (cons - voc).natAbs

/-- Number of vowels of `s` (the five-character set). -/
def cuentaVocales (s : List Char) : Nat := (s.filter (fun c => c ∈ vocales)).length

/-- Number of filler characters of `s`. -/
def cuentaNeutros (s : List Char) : Nat := (s.filter (fun c => c = neutro)).length

/-- The hex decode as claim C3 words it: a decoded byte outside the
printable ASCII range `32..126` makes the path not applicable. -/
def intento_decodificacion_indice_spec (texto : List Char) : Option (List Char) :=
  let texto_limpio := texto.filter (fun c => c ≠ ' ')
  if ¬ (texto_limpio.all (fun c => c ∈ digitosHex)) ∨ texto_limpio.length % 2 ≠ 0 then
    none
  else
    let octetos := unhex texto_limpio
    if octetos.all (fun b => 32 ≤ b ∧ b ≤ 126) then
      some (pyStrip ((octetos.map Char.ofNat).reverse))
    else
      none

/-! ## RotationSolver, modelled from the spec -/

/-- Modelled from the spec: no rotation solver exists under `src/`; §4.8
describes the per-character cyclic shift over a 26-symbol Latin alphabet,
case-insensitive, with non-alphabetic characters passed through. -/
def rotarChar (k : Nat) (c : Char) : Char :=
  if 'a' ≤ c ∧ c ≤ 'z' then Char.ofNat ('a'.toNat + ((c.toNat - 'a'.toNat + k) % 26))
  else if 'A' ≤ c ∧ c ≤ 'Z' then Char.ofNat ('A'.toNat + ((c.toNat - 'A'.toNat + k) % 26))
  else c

/-- Modelled from the spec: one full-text rotation by `k`. -/
def rotar (k : Nat) (s : List Char) : List Char := s.map (rotarChar k)

/-- Modelled from the spec: the result type of `solve_rotation` (§6):
either the winning shift with its decoded text and score, or the
low-confidence failure reason. -/
inductive ResultadoRotacion where
  | exito (shift : Nat) (texto : List Char) (score : Int)
  | fallo
  deriving DecidableEq, Repr

/-- The shifts `2..25` folded over after starting from shift `1`. -/
def desplazamientos : List Nat := (List.range 24).map (fun i => i + 2)

/-- Modelled from the spec: the score given to one shift candidate. -/
def claveRotacion (texto : List Char) (k : Nat) : Int :=
  puntuacion_estabilidad (rotar k texto)

/-- Modelled from the spec: the retained shift — start from shift `1`,
fold over `2..25`, replace the current best only on a strictly higher
score (first-seen wins ties). -/
def mejorDesplazamiento (texto : List Char) : Nat :=
  desplazamientos.foldl
    (fun b k => if claveRotacion texto k > claveRotacion texto b then k else b) 1

/-- Modelled from the spec: `solve_rotation` (§4.8) tries every shift in
`1..25`, scores each candidate with the stability scorer, retains the
first shift of maximal score, and fails when the best score is below the
confidence threshold `-2`. -/
def solve_rotation (texto : List Char) : ResultadoRotacion :=
  if claveRotacion texto (mejorDesplazamiento texto) < -2 then .fallo
  else
    .exito (mejorDesplazamiento texto) (rotar (mejorDesplazamiento texto) texto)
      (claveRotacion texto (mejorDesplazamiento texto))

/-! ## Helper lemmas -/

theorem foldl_mejor_mem {α : Type} (clave : α → Int) (x : α) (xs : List α) :
    xs.foldl (fun b k => if clave k > clave b then k else b) x ∈ x :: xs := by
  induction xs generalizing x with
  | nil => simp
  | cons y ys ih =>
    simp only [List.foldl_cons]
    rcases List.mem_cons.1 (ih (if clave y > clave x then y else x)) with h1 | h1
    · rw [h1]
      split
      · exact List.mem_cons_of_mem _ (List.mem_cons_self _ _)
      · exact List.mem_cons_self _ _
    · exact List.mem_cons_of_mem _ (List.mem_cons_of_mem _ h1)

theorem foldl_mejor_ge {α : Type} (clave : α → Int) (x : α) (xs : List α) :
    ∀ k ∈ x :: xs,
      clave k ≤ clave (xs.foldl (fun b c => if clave c > clave b then c else b) x) := by
  induction xs generalizing x with
  | nil =>
    intro k hk
    rcases List.mem_cons.1 hk with h | h
    · rw [h]; exact le_refl _
    · simp at h
  | cons y ys ih =>
    intro k hk
    simp only [List.foldl_cons]
    have hxz : clave x ≤ clave (if clave y > clave x then y else x) := by
      split <;> omega
    have hyz : clave y ≤ clave (if clave y > clave x then y else x) := by
      split <;> omega
    have hz := ih (if clave y > clave x then y else x)
    have hzres := hz _ (List.mem_cons_self _ ys)
    rcases List.mem_cons.1 hk with h | h
    · rw [h]; exact le_trans hxz hzres
    · rcases List.mem_cons.1 h with h2 | h2
      · rw [h2]; exact le_trans hyz hzres
      · exact hz _ (List.mem_cons_of_mem _ h2)

theorem mem_desplazamientos (k : Nat) :
    k ∈ (1 : Nat) :: desplazamientos ↔ 1 ≤ k ∧ k ≤ 25 := by
  simp only [desplazamientos, List.mem_cons, List.mem_map, List.mem_range]
  constructor
  · rintro (rfl | ⟨i, hi, rfl⟩) <;> omega
  · intro h
    by_cases h1 : k = 1
    · exact Or.inl h1
    · exact Or.inr ⟨k - 2, by omega, by omega⟩

/-! ## Claim theorems -/

/-- C1: the claim says `decodificar` never raises an unhandled fault and
that empty input yields an empty grid and empty candidates.  The code
builds the empty grid but then `leer_diagonal` evaluates `len(m[0])` on it,
an uncaught `IndexError` (modelled as `none`): empty input and all-space
input make `decodificar` fault. -/
theorem C1_decodificar_empty_fault :
    matriz [] 5 = [] ∧
    leer_diagonal (matriz [] 5) false false = none ∧
    decodificar [] 5 = none ∧
    decodificar [' '] 5 = none := by decide

/-- C2 counterexample: the claim says digits count toward neither vowels
nor consonants, but the code counts every non-vowel, non-filler character
as a consonant, so `"a1"` scores `1` while the claim's reading scores `0`. -/
theorem C2_counterexample :
    puntuacion_estabilidad ("a1".toList) = 1 ∧
    puntuacion_estabilidad_spec ("a1".toList) = 0 := by decide

/-- C3 counterexample: the claim says any decoded byte outside printable
ASCII makes the hex path not applicable, but `"010203"` decodes to bytes
`1, 2, 3` (non-printable) and the code still succeeds. -/
theorem C3_counterexample :
    unhex ("010203".toList) = [1, 2, 3] ∧
    intento_decodificacion_indice ("010203".toList) = some ['\x03', '\x02', '\x01'] ∧
    intento_decodificacion_indice_spec ("010203".toList) = none := by decide

/-- C5 counterexample: for an input that itself contains the filler
character `·`, stripping filler from the flattened grid also removes the
input's own `·`, so the cleaned input is not reproduced. -/
theorem C5_counterexample :
    limpiar ("a·b".toList) = "a·b".toList ∧
    ((matriz ("a·b".toList) 5).flatten).filter (fun c => c ≠ neutro) = "ab".toList ∧
    ("ab".toList : List Char) ≠ "a·b".toList := by decide

/-- C10 counterexample: a tab survives cleaning and occupies a grid cell,
but cells below both diagonal walks are visited by no reading: with width
`2`, the tab of `"abcd\tfgh"` sits at row 2, column 0 and appears in none
of the three candidates. -/
theorem C10_counterexample :
    '\t' ∈ limpiar ("abcd\tfgh".toList) ∧
    leer_diagonal (matriz ("abcd\tfgh".toList) 2) false false = some ("adb".toList) ∧
    leer_diagonal (matriz ("abcd\tfgh".toList) 2) true false = some ("gfh".toList) ∧
    leer_diagonal (matriz ("abcd\tfgh".toList) 2) false true = some ("dab".toList) ∧
    '\t' ∉ ("adb".toList : List Char) ∧
    '\t' ∉ ("gfh".toList : List Char) ∧
    '\t' ∉ ("dab".toList : List Char) := by decide

/-- C4: `solve_rotation` (spec-modelled: the solver is absent from `src/`)
fails exactly when every shift in `1..25` scores below `-2`; on success it
reports a shift in `1..25` together with its decoded text and that text's
stability score, which is at least `-2` and maximal over all shifts. -/
theorem C4_solve_rotation (texto : List Char) :
    (solve_rotation texto = .fallo ↔
      ∀ k, k ≤ 25 → 1 ≤ k → puntuacion_estabilidad (rotar k texto) < -2) ∧
    (∀ sh t sc, solve_rotation texto = .exito sh t sc →
      1 ≤ sh ∧ sh ≤ 25 ∧ t = rotar sh texto ∧
      sc = puntuacion_estabilidad (rotar sh texto) ∧ -2 ≤ sc ∧
      ∀ k, k ≤ 25 → 1 ≤ k → puntuacion_estabilidad (rotar k texto) ≤ sc) := by
  have hmem : mejorDesplazamiento texto ∈ (1 : Nat) :: desplazamientos :=
    foldl_mejor_mem (claveRotacion texto) 1 desplazamientos
  have hge : ∀ k ∈ (1 : Nat) :: desplazamientos,
      claveRotacion texto k ≤ claveRotacion texto (mejorDesplazamiento texto) :=
    foldl_mejor_ge (claveRotacion texto) 1 desplazamientos
  have hrange := (mem_desplazamientos _).1 hmem
  constructor
  · by_cases h : claveRotacion texto (mejorDesplazamiento texto) < -2
    · simp only [solve_rotation, if_pos h]
      constructor
      · intro _ k hk2 hk1
        have hk := hge k ((mem_desplazamientos k).2 ⟨hk1, hk2⟩)
        exact lt_of_le_of_lt hk h
      · intro _
        trivial
    · simp only [solve_rotation, if_neg h]
      constructor
      · intro hcontra
        exact ResultadoRotacion.noConfusion hcontra
      · intro hall
        exact absurd (hall (mejorDesplazamiento texto) hrange.2 hrange.1) h
  · intro sh t sc hEq
    by_cases h : claveRotacion texto (mejorDesplazamiento texto) < -2
    · simp only [solve_rotation, if_pos h] at hEq
      exact ResultadoRotacion.noConfusion hEq
    · simp only [solve_rotation, if_neg h] at hEq
      cases hEq
      refine ⟨hrange.1, hrange.2, rfl, rfl, Int.not_lt.mp h, ?_⟩
      intro k hk2 hk1
      exact hge k ((mem_desplazamientos k).2 ⟨hk1, hk2⟩)

/-- C4 witness: on the all-digit text `"0000"` every rotation scores `-4`,
so the solver reports the low-confidence failure. -/
theorem C4_witness : solve_rotation ("0000".toList) = ResultadoRotacion.fallo :=
  (C4_solve_rotation ("0000".toList)).1.mpr (by decide)

theorem particion_puntuacion (s : List Char) :
    (s.filter esConsonanteCodigo).length + cuentaVocales s + cuentaNeutros s = s.length := by
  induction s with
  | nil => rfl
  | cons c cs ih =>
    simp only [cuentaVocales, cuentaNeutros] at ih ⊢
    by_cases hv : c ∈ vocales
    · have hn : ¬ (c = neutro) := by
        intro h
        subst h
        revert hv
        decide
      simp [List.filter_cons, esConsonanteCodigo, hv, hn]
      omega
    · by_cases hn : c = neutro
      · subst hn
        have hnv : ¬ (neutro ∈ vocales) := by decide
        simp [List.filter_cons, esConsonanteCodigo, hnv]
        omega
      · simp [List.filter_cons, esConsonanteCodigo, hv, hn]
        omega

/-- C2 amended: the score is `voc − |cons − voc|` where `voc` counts the
five vowels but `cons` counts every character that is neither a vowel nor
the filler — digits, spaces and punctuation included. -/
theorem C2_puntuacion_estabilidad_amended (s : List Char) :
    puntuacion_estabilidad s =
      (cuentaVocales s : Int) -
        (((s.length - cuentaVocales s - cuentaNeutros s : Nat) : Int) -
          (cuentaVocales s : Int)).natAbs := by
  have h := particion_puntuacion s
  have hc : (s.filter esConsonanteCodigo).length =
      s.length - cuentaVocales s - cuentaNeutros s := by omega
  simp only [puntuacion_estabilidad, cuentaVocales] at hc ⊢
  rw [hc]

/-- C7: the router signals structural inconsistency exactly when there is
no whitespace token or the mean token length is below 3.5 (`2·sum < 7·n`),
and whenever it fires on the linguistic chain's output the dispatcher
returns the Módulo V fallback record built from the original input; the
dispatcher runs the linguistic chain whenever the FIL guard fails. -/
theorem C7_router :
    (∀ s, deteccion_inconsistencia s = true ↔
      (pySplit s = [] ∨
        2 * ((pySplit s).map List.length).sum < 7 * (pySplit s).length)) ∧
    (∀ texto ancho base,
      crear_matriz_y_leer_diagonal texto ancho = some base →
      deteccion_inconsistencia
        (reconstruccion_morfologica_final (consolidacion_fonosemantica base)) = true →
      decodificarLinguistico texto ancho =
        some { modulo_activo := etiquetaModuloV
               diagnostico_mdi := some diagnosticoFallo
               mii_seleccion := none
               miii_fonetizado := none
               mensaje_descifrado := solucion_espejo_correccion texto }) ∧
    (∀ texto ancho, condicionFIL texto = false →
      decodificar texto ancho = decodificarLinguistico texto ancho) := by
  refine ⟨?_, ?_, ?_⟩
  · intro s
    by_cases hp : pySplit s = []
    · simp [deteccion_inconsistencia, hp]
    · simp [deteccion_inconsistencia, hp]
  · intro texto ancho base h1 h2
    simp [decodificarLinguistico, h1, h2]
  · intro texto ancho h
    simp [decodificar, h]

/-- C7 witness: the two-token text `"ab cd"` has mean token length `2`,
below the threshold, so the router fires; on input `"ab"` with width `5`
the whole linguistic chain ends in the fallback record. -/
theorem C7_witness :
    deteccion_inconsistencia ("ab cd".toList) = true ∧
    decodificarLinguistico ("ab".toList) 5 =
      some { modulo_activo := etiquetaModuloV
             diagnostico_mdi := some diagnosticoFallo
             mii_seleccion := none
             miii_fonetizado := none
             mensaje_descifrado := solucion_espejo_correccion ("ab".toList) } :=
  ⟨(C7_router.1 ("ab cd".toList)).mpr (Or.inr (by decide)),
    C7_router.2.1 ("ab".toList) 5 ("ab".toList) (by decide) (by decide)⟩

/-- C8: the fallback correction checks the original input, upper-cased and
space-stripped, for the K4 fingerprint; it returns the fixed canonical
answer when found and the generic no-clear-result message otherwise, and
(being a total function) it never raises. -/
theorem C8_fallback (texto : List Char) :
    (esSubcadena huellaK4 ((texto.map Char.toUpper).filter (fun c => c ≠ ' ')) = true →
      solucion_espejo_correccion texto = respuestaK4) ∧
    (esSubcadena huellaK4 ((texto.map Char.toUpper).filter (fun c => c ≠ ' ')) = false →
      solucion_espejo_correccion texto = mensajeGenerico) := by
  constructor <;> intro h <;> simp only [solucion_espejo_correccion, h] <;> simp

/-- C8 witness: on the fingerprint itself the canonical answer is
returned. -/
theorem C8_witness : solucion_espejo_correccion huellaK4 = respuestaK4 :=
  (C8_fallback huellaK4).1 (by decide)

theorem modulo_activo_linguistico (texto : List Char) (ancho : Nat)
    (r : DiagnosticResult) (h : decodificarLinguistico texto ancho = some r) :
    r.modulo_activo = etiquetaModuloV ∨ r.modulo_activo = etiquetaLinguistico := by
  unfold decodificarLinguistico at h
  split at h
  · exact Option.noConfusion h
  · dsimp only at h
    split at h
    · cases h
      left
      rfl
    · cases h
      right
      rfl

/-- C9: when the FIL guard holds but the hex decode yields the empty
string (for instance hex that encodes only whitespace), `decodificar`
falls through to the linguistic chain and its result is never the FIL
record, so a successful hex decode does not always take priority. -/
theorem C9_hex_empty_falls_through (texto : List Char) (ancho : Nat)
    (h1 : condicionFIL texto = true)
    (h2 : intento_decodificacion_indice texto = some []) :
    decodificar texto ancho = decodificarLinguistico texto ancho ∧
    ∀ r, decodificar texto ancho = some r → r.modulo_activo ≠ etiquetaFIL := by
  have hd : decodificar texto ancho = decodificarLinguistico texto ancho := by
    simp [decodificar, h1, h2]
  refine ⟨hd, ?_⟩
  intro r hr
  rw [hd] at hr
  rcases modulo_activo_linguistico texto ancho r hr with h | h <;> rw [h] <;> decide

/-- C9 witness: `"202020"` is hex for three spaces; the decode strips to
the empty string and the dispatcher runs the linguistic chain instead. -/
theorem C9_witness :
    decodificar ("202020".toList) 5 = decodificarLinguistico ("202020".toList) 5 :=
  (C9_hex_empty_falls_through ("202020".toList) 5 (by decide) (by decide)).1

theorem techo_div (a q : Nat) (h : 1 ≤ a) : (a * q + a - 1) / a = q := by
  rw [Nat.add_sub_assoc (by omega : 1 ≤ a), Nat.mul_add_div (by omega : 0 < a),
    Nat.div_eq_of_lt (by omega : a - 1 < a)]
  rfl

theorem techo_div_resto (a q r : Nat) (h1 : 1 ≤ r) (h2 : r < a) :
    (a * q + r + a - 1) / a = q + 1 := by
  rw [Nat.add_assoc, Nat.add_sub_assoc (by omega : 1 ≤ r + a),
    Nat.mul_add_div (by omega : 0 < a),
    Nat.div_eq_of_lt_le (by omega : 1 * a ≤ r + a - 1) (by omega : r + a - 1 < (1 + 1) * a)]

theorem longitud_rellenar (l : List Char) (a : Nat) (h : 1 ≤ a) :
    (rellenar l a).length = a * ((l.length + a - 1) / a) := by
  have hd := Nat.div_add_mod l.length a
  by_cases hr : l.length % a = 0
  · simp only [rellenar, if_pos hr]
    have hL : l.length = a * (l.length / a) := by omega
    have hdiv : (l.length + a - 1) / a = l.length / a := by
      conv_lhs => rw [hL]
      exact techo_div a (l.length / a) h
    rw [hdiv]
    exact hL
  · simp only [rellenar, if_neg hr, List.length_append, List.length_replicate]
    have hlt : l.length % a < a := Nat.mod_lt _ (by omega)
    have hdiv : (l.length + a - 1) / a = l.length / a + 1 := by
      conv_lhs => rw [show l.length = a * (l.length / a) + l.length % a by omega]
      exact techo_div_resto a (l.length / a) (l.length % a) (by omega) hlt
    rw [hdiv, Nat.mul_add, Nat.mul_one]
    generalize hX : a * (l.length / a) = X at hd
    generalize hR : l.length % a = R at hd hr hlt
    omega

theorem longitud_matriz (texto : List Char) (ancho : Nat) (h : 1 ≤ ancho) :
    (matriz texto ancho).length = ((limpiar texto).length + ancho - 1) / ancho := by
  simp only [matriz, List.length_map, List.length_range]
  rw [longitud_rellenar _ _ h]
  exact techo_div ancho _ h

theorem flatten_filas (a : Nat) : ∀ (n : Nat) (t : List Char), t.length = a * n →
    ((List.range n).map (fun i => (t.drop (i * a)).take a)).flatten = t := by
  intro n
  induction n with
  | zero =>
    intro t ht
    simp only [Nat.mul_zero] at ht
    rw [List.eq_nil_of_length_eq_zero ht]
    rfl
  | succ n ih =>
    intro t ht
    rw [List.range_succ_eq_map]
    simp only [List.map_cons, List.map_map, List.flatten_cons]
    have hcomp : ∀ i ∈ List.range n,
        ((fun i => (t.drop (i * a)).take a) ∘ Nat.succ) i =
          (fun i => (((t.drop a).drop (i * a)).take a)) i := by
      intro i _
      simp only [Function.comp_apply, List.drop_drop]
      rw [Nat.succ_mul, Nat.add_comm]
    rw [List.map_congr_left hcomp]
    rw [ih (t.drop a) (by rw [List.length_drop, ht, Nat.mul_succ, Nat.add_sub_cancel])]
    simp only [Nat.zero_mul, List.drop_zero]
    exact List.take_append_drop a t

theorem flatten_matriz (texto : List Char) (ancho : Nat) (h : 1 ≤ ancho) :
    (matriz texto ancho).flatten = rellenar (limpiar texto) ancho := by
  have hlen := longitud_rellenar (limpiar texto) ancho h
  unfold matriz
  apply flatten_filas
  rw [hlen, techo_div ancho _ h]

/-- C5 amended: for width ≥ 1 the grid has `ceil(cleanedLen/width)` rows of
exactly `width` columns, and — provided the input does not itself contain
the filler character — stripping filler from the flattened grid reproduces
the cleaned (space-removed, lower-cased) input. -/
theorem C5_matriz_amended (texto : List Char) (ancho : Nat) (h : 1 ≤ ancho) :
    (matriz texto ancho).length = ((limpiar texto).length + ancho - 1) / ancho ∧
    (∀ fila ∈ matriz texto ancho, fila.length = ancho) ∧
    (neutro ∉ limpiar texto →
      ((matriz texto ancho).flatten).filter (fun c => c ≠ neutro) = limpiar texto) := by
  refine ⟨longitud_matriz texto ancho h, ?_, ?_⟩
  · intro fila hf
    unfold matriz at hf
    rcases List.mem_map.1 hf with ⟨i, hi, rfl⟩
    rw [List.mem_range] at hi
    have hlen := longitud_rellenar (limpiar texto) ancho h
    rw [hlen, techo_div ancho _ h] at hi
    rw [List.length_take, List.length_drop, hlen]
    have h2 : i * ancho + ancho ≤
        ancho * (((limpiar texto).length + ancho - 1) / ancho) := by
      calc i * ancho + ancho = (i + 1) * ancho := (Nat.succ_mul i ancho).symm
        _ = ancho * (i + 1) := Nat.mul_comm _ _
        _ ≤ _ := Nat.mul_le_mul_left ancho hi
    generalize hX : ancho * (((limpiar texto).length + ancho - 1) / ancho) = X at h2 ⊢
    generalize hY : i * ancho = Y at h2 ⊢
    omega
  · intro hn
    rw [flatten_matriz texto ancho h]
    have hself : (limpiar texto).filter (fun c => c ≠ neutro) = limpiar texto := by
      apply List.filter_eq_self.mpr
      intro c hc
      exact decide_eq_true (fun hEq => hn (hEq ▸ hc))
    unfold rellenar
    by_cases hr : (limpiar texto).length % ancho = 0
    · rw [if_pos hr]
      exact hself
    · rw [if_neg hr, List.filter_append, hself]
      have hrep : (List.replicate (ancho - (limpiar texto).length % ancho) neutro).filter
          (fun c => c ≠ neutro) = [] := by
        induction (ancho - (limpiar texto).length % ancho) with
        | zero => rfl
        | succ k ihk => simp [ihk]
      rw [hrep, List.append_nil]

/-- C5 witness: width 2 on `"abc"` — two rows of two columns, and the
flattened grid minus filler reproduces `"abc"`. -/
theorem C5_witness :
    (matriz ("abc".toList) 2).length = ((limpiar ("abc".toList)).length + 2 - 1) / 2 ∧
    (∀ fila ∈ matriz ("abc".toList) 2, fila.length = 2) ∧
    (neutro ∉ limpiar ("abc".toList) →
      ((matriz ("abc".toList) 2).flatten).filter (fun c => c ≠ neutro) =
        limpiar ("abc".toList)) :=
  C5_matriz_amended ("abc".toList) 2 (by decide)

/-- C6 amended: whenever the cleaned input is nonempty (so the reader
returns instead of faulting) and the width is at least 1, the reader
returns, among the three filler-stripped candidates (forward, reverse,
mirrored), one of maximal stability score, and every candidate listed
before it scores strictly lower (first of the maxima wins). -/
theorem C6_seleccion (texto : List Char) (ancho : Nat) (h1 : 1 ≤ ancho)
    (h2 : limpiar texto ≠ []) :
    ∃ n i e : List Char,
      leer_diagonal (matriz texto ancho) false false = some n ∧
      leer_diagonal (matriz texto ancho) true false = some i ∧
      leer_diagonal (matriz texto ancho) false true = some e ∧
      ∃ j : Fin 3,
        crear_matriz_y_leer_diagonal texto ancho = some ([n, i, e].get j) ∧
        (∀ k : Fin 3, puntuacion_estabilidad ([n, i, e].get k) ≤
          puntuacion_estabilidad ([n, i, e].get j)) ∧
        (∀ k : Fin 3, k < j → puntuacion_estabilidad ([n, i, e].get k) <
          puntuacion_estabilidad ([n, i, e].get j)) := by
  have hrow := longitud_matriz texto ancho h1
  have hL : 1 ≤ (limpiar texto).length := List.length_pos.mpr h2
  have hpos : 1 ≤ ((limpiar texto).length + ancho - 1) / ancho :=
    (Nat.le_div_iff_mul_le (by omega)).mpr (by omega)
  cases hM : matriz texto ancho with
  | nil =>
    rw [hM] at hrow
    simp at hrow
    omega
  | cons m0 rest =>
    obtain ⟨n, hn⟩ : ∃ n, leer_diagonal (m0 :: rest) false false = some n := ⟨_, rfl⟩
    obtain ⟨i, hi⟩ : ∃ i, leer_diagonal (m0 :: rest) true false = some i := ⟨_, rfl⟩
    obtain ⟨e, he⟩ : ∃ e, leer_diagonal (m0 :: rest) false true = some e := ⟨_, rfl⟩
    refine ⟨n, i, e, hn, hi, he, ?_⟩
    have hcrear : crear_matriz_y_leer_diagonal texto ancho =
        some (maxConClave puntuacion_estabilidad n [i, e]) := by
      simp only [crear_matriz_y_leer_diagonal]
      rw [hM, hn, hi, he]
    rw [hcrear]
    simp only [maxConClave, List.foldl_cons, List.foldl_nil]
    by_cases hBA : puntuacion_estabilidad i > puntuacion_estabilidad n
    · rw [if_pos hBA]
      by_cases hCB : puntuacion_estabilidad e > puntuacion_estabilidad i
      · rw [if_pos hCB]
        refine ⟨⟨2, by omega⟩, rfl, ?_, ?_⟩
        · intro k
          fin_cases k
          · show puntuacion_estabilidad n ≤ puntuacion_estabilidad e
            omega
          · show puntuacion_estabilidad i ≤ puntuacion_estabilidad e
            omega
          · show puntuacion_estabilidad e ≤ puntuacion_estabilidad e
            omega
        · intro k hk
          fin_cases k
          · show puntuacion_estabilidad n < puntuacion_estabilidad e
            omega
          · show puntuacion_estabilidad i < puntuacion_estabilidad e
            omega
          · simp [Fin.lt_def] at hk
      · rw [if_neg hCB]
        refine ⟨⟨1, by omega⟩, rfl, ?_, ?_⟩
        · intro k
          fin_cases k
          · show puntuacion_estabilidad n ≤ puntuacion_estabilidad i
            omega
          · show puntuacion_estabilidad i ≤ puntuacion_estabilidad i
            omega
          · show puntuacion_estabilidad e ≤ puntuacion_estabilidad i
            omega
        · intro k hk
          fin_cases k
          · show puntuacion_estabilidad n < puntuacion_estabilidad i
            omega
          · simp [Fin.lt_def] at hk
          · simp [Fin.lt_def] at hk
    · rw [if_neg hBA]
      by_cases hCA : puntuacion_estabilidad e > puntuacion_estabilidad n
      · rw [if_pos hCA]
        refine ⟨⟨2, by omega⟩, rfl, ?_, ?_⟩
        · intro k
          fin_cases k
          · show puntuacion_estabilidad n ≤ puntuacion_estabilidad e
            omega
          · show puntuacion_estabilidad i ≤ puntuacion_estabilidad e
            omega
          · show puntuacion_estabilidad e ≤ puntuacion_estabilidad e
            omega
        · intro k hk
          fin_cases k
          · show puntuacion_estabilidad n < puntuacion_estabilidad e
            omega
          · show puntuacion_estabilidad i < puntuacion_estabilidad e
            omega
          · simp [Fin.lt_def] at hk
      · rw [if_neg hCA]
        refine ⟨⟨0, by omega⟩, rfl, ?_, ?_⟩
        · intro k
          fin_cases k
          · show puntuacion_estabilidad n ≤ puntuacion_estabilidad n
            omega
          · show puntuacion_estabilidad i ≤ puntuacion_estabilidad n
            omega
          · show puntuacion_estabilidad e ≤ puntuacion_estabilidad n
            omega
        · intro k hk
          fin_cases k
          · simp [Fin.lt_def] at hk
          · simp [Fin.lt_def] at hk
          · simp [Fin.lt_def] at hk

/-- C6 counterexample: on empty input the transposition reader does not
return any of the three candidates — it faults (`none`, the uncaught
`IndexError`), so it does not *always* return the best candidate. -/
theorem C6_counterexample : crear_matriz_y_leer_diagonal [] 5 = none := by decide

/-- C6 witness: `"ab"` at width 1 — the forward reading `"a"` wins over
the reverse reading `"b"` (ties with the mirrored `"a"` broken in favor of
the earlier candidate). -/
theorem C6_witness :
    ∃ n i e : List Char,
      leer_diagonal (matriz ("ab".toList) 1) false false = some n ∧
      leer_diagonal (matriz ("ab".toList) 1) true false = some i ∧
      leer_diagonal (matriz ("ab".toList) 1) false true = some e ∧
      ∃ j : Fin 3,
        crear_matriz_y_leer_diagonal ("ab".toList) 1 = some ([n, i, e].get j) ∧
        (∀ k : Fin 3, puntuacion_estabilidad ([n, i, e].get k) ≤
          puntuacion_estabilidad ([n, i, e].get j)) ∧
        (∀ k : Fin 3, k < j → puntuacion_estabilidad ([n, i, e].get k) <
          puntuacion_estabilidad ([n, i, e].get j)) :=
  C6_seleccion ("ab".toList) 1 (by decide) (by decide)

theorem toNat_ofNat_valido (n : Nat) (h : n.isValidChar) : (Char.ofNat n).toNat = n := by
  rw [Char.ofNat, dif_pos h]
  rfl

theorem toLower_imagen (x c : Char) (h : Char.toLower x = c) :
    x = c ∨ (97 ≤ c.toNat ∧ c.toNat ≤ 122) := by
  simp only [Char.toLower] at h
  by_cases hx : x.toNat ≥ 65 ∧ x.toNat ≤ 90
  · rw [if_pos hx] at h
    right
    have hv : (x.toNat + 32).isValidChar := Or.inl (by omega)
    have h2 := toNat_ofNat_valido (x.toNat + 32) hv
    rw [h] at h2
    omega
  · rw [if_neg hx] at h
    exact Or.inl h

theorem toLower_fijo (c : Char) (h : ¬ (c.toNat ≥ 65 ∧ c.toNat ≤ 90)) :
    Char.toLower c = c := by
  simp only [Char.toLower]
  rw [if_neg h]

theorem count_limpiar (c : Char) (h1 : c ≠ ' ')
    (h2 : ¬ (c.toNat ≥ 65 ∧ c.toNat ≤ 90))
    (h3 : c.toNat < 97 ∨ 122 < c.toNat) :
    ∀ texto : List Char, (limpiar texto).count c = texto.count c := by
  intro texto
  induction texto with
  | nil => rfl
  | cons x xs ih =>
    by_cases hx : x = ' '
    · subst hx
      have hl : limpiar (' ' :: xs) = limpiar xs := by simp [limpiar]
      rw [hl, ih, List.count_cons]
      have : ¬ (' ' = c) := fun hh => h1 hh.symm
      simp [this]
    · have hl : limpiar (x :: xs) = Char.toLower x :: limpiar xs := by
        simp [limpiar, hx]
      have hlx : (Char.toLower x = c) ↔ (x = c) := by
        constructor
        · intro hEq
          rcases toLower_imagen x c hEq with h | h
          · exact h
          · exact absurd h (by omega)
        · intro hEq
          rw [hEq]
          exact toLower_fijo c h2
      rw [hl, List.count_cons, List.count_cons, ih]
      by_cases hxc : x = c
      · have hlc : Char.toLower x = c := hlx.mpr hxc
        rw [hlc, hxc]
      · have hnc : ¬ (Char.toLower x = c) := fun hh => hxc (hlx.mp hh)
        rw [beq_eq_false_iff_ne.mpr hnc, beq_eq_false_iff_ne.mpr hxc]

/-- C10 amended: cleaning removes only the ASCII space and lower-cases, so
tab, newline and carriage return are retained (their counts survive
cleaning), occupy grid cells (their counts survive flattening the grid,
only filler padding is added), and each is counted as a consonant by the
stability scorer; such a character need not appear in the diagonal
candidates, since cells below both diagonal traversals are never visited. -/
theorem C10_limpieza :
    (∀ texto : List Char, ∀ c ∈ (['\t', '\n', '\r'] : List Char),
      (limpiar texto).count c = texto.count c) ∧
    (∀ texto : List Char, ∀ ancho : Nat, 1 ≤ ancho →
      ∀ c ∈ (['\t', '\n', '\r'] : List Char),
        ((matriz texto ancho).flatten).count c = (limpiar texto).count c) ∧
    (∀ c ∈ (['\t', '\n', '\r'] : List Char), esConsonanteCodigo c = true) := by
  have hchars : ∀ c ∈ (['\t', '\n', '\r'] : List Char),
      c ≠ ' ' ∧ ¬ (c.toNat ≥ 65 ∧ c.toNat ≤ 90) ∧ (c.toNat < 97 ∨ 122 < c.toNat) ∧
        c ≠ neutro := by decide
  refine ⟨?_, ?_, by decide⟩
  · intro texto c hc
    obtain ⟨hs, hu, hr, _⟩ := hchars c hc
    exact count_limpiar c hs hu hr texto
  · intro texto ancho h c hc
    obtain ⟨_, _, _, hne⟩ := hchars c hc
    rw [flatten_matriz texto ancho h]
    unfold rellenar
    by_cases hr : (limpiar texto).length % ancho = 0
    · rw [if_pos hr]
    · rw [if_neg hr, List.count_append]
      have : (List.replicate (ancho - (limpiar texto).length % ancho) neutro).count c = 0 := by
        induction (ancho - (limpiar texto).length % ancho) with
        | zero => rfl
        | succ k ihk => simp [List.replicate_succ, List.count_cons, ihk, hne]
      rw [this]
      omega

/-- C10 witness: the count of tabs in the flattened width-2 grid of
`"a\tb"` equals its count in the cleaned input. -/
theorem C10_witness :
    ((matriz ("a\tb".toList) 2).flatten).count '\t' =
      (limpiar ("a\tb".toList)).count '\t' :=
  C10_limpieza.2.1 ("a\tb".toList) 2 (by decide) '\t' (by decide)

/-- C3 amended: under the guards (all hex digits, even length), the decode
succeeds exactly when every decoded byte is valid ASCII (`< 128` — control
characters included); any byte of `128` or above makes the path return the
not-applicable signal; on success the result is the decoded byte string
reversed as a single block and trimmed of surrounding whitespace. -/
theorem C3_indice_amended (texto : List Char)
    (h1 : (texto.filter (fun c => c ≠ ' ')).all (fun c => c ∈ digitosHex) = true)
    (h2 : (texto.filter (fun c => c ≠ ' ')).length % 2 = 0) :
    (intento_decodificacion_indice texto = none ↔
      ∃ b ∈ unhex (texto.filter (fun c => c ≠ ' ')), 128 ≤ b) ∧
    (∀ r, intento_decodificacion_indice texto = some r →
      r = pyStrip (((unhex (texto.filter (fun c => c ≠ ' '))).map Char.ofNat).reverse)) := by
  have hguard : ¬ (¬ ((texto.filter (fun c => c ≠ ' ')).all (fun c => c ∈ digitosHex)) = true ∨
      (texto.filter (fun c => c ≠ ' ')).length % 2 ≠ 0) := by
    push_neg
    exact ⟨h1, h2⟩
  by_cases hb : (unhex (texto.filter (fun c => c ≠ ' '))).all (fun b => b < 128) = true
  · have hres : intento_decodificacion_indice texto =
        some (pyStrip (((unhex (texto.filter (fun c => c ≠ ' '))).map Char.ofNat).reverse)) := by
      unfold intento_decodificacion_indice
      rw [if_neg hguard, if_pos hb]
    constructor
    · rw [hres]
      simp only [List.all_eq_true, decide_eq_true_eq] at hb
      constructor
      · intro h
        exact Option.noConfusion h
      · rintro ⟨b, hmem, hge⟩
        have := hb b hmem
        omega
    · intro r hr
      rw [hres] at hr
      exact (Option.some.injEq _ _ ▸ hr).symm
  · have hres : intento_decodificacion_indice texto = none := by
      unfold intento_decodificacion_indice
      rw [if_neg hguard, if_neg hb]
    constructor
    · rw [hres]
      simp only [List.all_eq_true, decide_eq_true_eq] at hb
      push_neg at hb
      obtain ⟨b, hmem, hge⟩ := hb
      exact ⟨fun _ => ⟨b, hmem, by omega⟩, fun _ => rfl⟩
    · intro r hr
      rw [hres] at hr
      exact Option.noConfusion hr

/-- C3 witness: `"4142"` decodes to `"AB"`, is reversed to `"BA"`, and the
trim leaves it unchanged. -/
theorem C3_witness :
    (intento_decodificacion_indice ("4142".toList) = none ↔
      ∃ b ∈ unhex (("4142".toList).filter (fun c => c ≠ ' ')), 128 ≤ b) ∧
    (∀ r, intento_decodificacion_indice ("4142".toList) = some r →
      r = pyStrip (((unhex (("4142".toList).filter (fun c => c ≠ ' '))).map
        Char.ofNat).reverse)) :=
  C3_indice_amended ("4142".toList) (by decide) (by decide)

end Cervsus
